import Mathlib

/-!
Verification of the ProcreateViewer reading engine (`src/procreate_reader.py`)
against its natural-language specification.

The development shallowly embeds the Python code of `ProcreateFile`
(`procreate_reader.py`) in Lean:

* plist values decoded by `plistlib` are modelled by the inductive `PValue`;
  Python dynamic typing (`isinstance` tests, truthiness, `len`, iteration,
  subscripting) is modelled by total Lean functions on `PValue`, raising
  (`Except.error ()`) exactly where the Python operation would raise.
* external libraries (`plistlib.loads`, `PIL.Image.open`, `lz4.block`,
  `lzo`, `zlib` decompressors) are modelled as oracle function parameters:
  an oracle returning `none` models the library call raising an exception.
* `PIL` images are modelled by `Img` (dimensions plus a total pixel
  function); `Image.paste`, `Image.crop`, `Image.alpha_composite` and the
  BGRA raw decoder are modelled after Pillow's documented/C semantics.
* machine integers: the tile byte stream is a `List Nat` of byte values;
  the 4-byte little/big endian fields are decoded arithmetically.

Definitions follow the Python source line by line; the few places where a
definition follows the specification text instead (for refinement
comparisons) are named with a `Spec` suffix and marked as such.
-/

namespace Procreate

/-- A decoded property-list value, as returned by Python's `plistlib.loads`.
`uid` models `plistlib.UID` (whose `.data` attribute is a non-negative int);
`dict` models a Python dict with string keys (plist dictionary keys are
always strings); `real` models a Python float by its exact rational value. -/
inductive PValue : Type where
  | str    (s : String)
  | int    (n : Int)
  | real   (q : ℚ)
  | bool   (b : Bool)
  | bytes  (bs : List Nat)
  | arr    (xs : List PValue)
  | dict   (entries : List (String × PValue))
  | uid    (n : Nat)

namespace PValue

/-- Python truthiness (`bool(v)`) of a plist value.  Empty containers,
zero numbers and the empty string are falsy; `plistlib.UID` objects have no
`__bool__`/`__len__` and are always truthy. -/
def truthy : PValue → Bool
  | .str s => !s.isEmpty
  | .int n => n ≠ 0
  | .real q => q ≠ 0
  | .bool b => b
  | .bytes bs => !bs.isEmpty
  | .arr xs => !xs.isEmpty
  | .dict d => !d.isEmpty
  | .uid _ => true

/-- Python `len(v)`: defined for sized values, raises `TypeError` for
numbers, booleans and `UID` objects. -/
def pyLen : PValue → Except Unit Nat
  | .str s => .ok s.length
  | .bytes bs => .ok bs.length
  | .arr xs => .ok xs.length
  | .dict d => .ok d.length
  | _ => .error ()

end PValue

/-- `d.get(key)` on a Python dict decoded from a plist (string keys,
no duplicate keys; modelled as first-match association lookup). -/
def dictGet (d : List (String × PValue)) (key : String) : Option PValue :=
  match d with
  | [] => none
  | (k, v) :: rest => if k = key then some v else dictGet rest key

/-- `d.get(key, dfl)` with an explicit default. -/
def dictGetD (d : List (String × PValue)) (key : String) (dfl : PValue) : PValue :=
  (dictGet d key).getD dfl

/-- Truncation toward zero, Python `int(q)` for a float of exact value
`q`: with the reduced numerator and positive denominator, truncated
integer division (`⌊q⌋` for `q ≥ 0`, `⌈q⌉` for `q < 0`). -/
def ratTrunc (q : ℚ) : Int := q.num.tdiv q.den

/-- Big-endian signed 32-bit decode, `struct.unpack(">i", bytes4)[0]`. -/
def be32signed (b0 b1 b2 b3 : Nat) : Int :=
  let u : Nat := ((b0 * 256 + b1) * 256 + b2) * 256 + b3
  if u < 2 ^ 31 then (u : Int) else (u : Int) - 2 ^ 32

/--
`ProcreateFile._resolve_uid(uid)` (procreate_reader.py:183-202).

`uid` is `none` for Python `None`, otherwise a `PValue`.  `objs` is the
current value of `self._archive_objects` (a `PValue`, normally a list).
Mirrors the source:
* `isinstance(uid, int)` is true for Python ints *and bools*;
* `hasattr(uid, "data")` is true for `plistlib.UID`, whose `.data` is an
  int (not bytes), so `idx = uid.data`;
* the chained comparison `0 <= idx < len(self._archive_objects)`
  short-circuits: `len` (which can raise `TypeError` when
  `_archive_objects` is not sized) is evaluated only when `0 <= idx`.
-/
def resolveUid (objs : PValue) (uid : Option PValue) : Except Unit (Option PValue) :=
  match uid with
  | none => .ok none
  | some u =>
    let idx : Option Int :=
      match u with
      | .int n => some n
      | .bool b => some (if b then 1 else 0)
      | .uid n => some (n : Int)
      | _ => none
    match idx with
    | none => .ok none
    | some i =>
      if 0 ≤ i then do
        let len ← objs.pyLen
        if i < (len : Int) then
          match objs with
          | .arr xs => .ok (some (xs.getD i.toNat (.str "")))
          | .str s => .ok (some (.str (String.singleton (s.data.getD i.toNat ' '))))
          | .bytes bs => .ok (some (.int (bs.getD i.toNat 0)))
          | _ => .error ()
        else .ok none
      else .ok none

/-! ## PIL image model

An RGBA image is modelled by its size and a total pixel function
(reads outside the geometry are never performed by the embedded code;
`paste` writes are clipped to the destination geometry as in Pillow). -/

/-- One RGBA pixel: channel values 0..255. -/
abbrev Pix : Type := Nat × Nat × Nat × Nat

/-- An RGBA `PIL.Image.Image`. -/
structure Img : Type where
  w : Nat
  h : Nat
  px : Nat → Nat → Pix

/-- `Image.new("RGBA", (w, h), c)`. -/
def Img.new (w h : Nat) (c : Pix) : Img := ⟨w, h, fun _ _ => c⟩

/-- `base.paste(tile, (x0, y0))` for RGBA images without a mask: pixels
(all four channels) inside the pasted box are replaced, writes are clipped
to the destination bounds, everything else is untouched.  `x0, y0` may be
negative (Pillow clips). -/
def Img.paste (base tile : Img) (x0 y0 : Int) : Img :=
  ⟨base.w, base.h, fun x y =>
    if x < base.w ∧ y < base.h ∧
       x0 ≤ (x : Int) ∧ (x : Int) < x0 + tile.w ∧
       y0 ≤ (y : Int) ∧ (y : Int) < y0 + tile.h then
      tile.px ((x : Int) - x0).toNat ((y : Int) - y0).toNat
    else base.px x y⟩

/-- `img.crop((0, 0, w, h))`: pixels are unchanged inside the source
geometry and transparent black in any padded region. -/
def Img.crop0 (img : Img) (w h : Nat) : Img :=
  ⟨w, h, fun x y => if x < img.w ∧ y < img.h then img.px x y else (0, 0, 0, 0)⟩

/-- Pillow's `SHIFTFORDIV255(v) = ((v >> 8) + v) >> 8`, the cheap rounded
division by 255 used by `alpha_composite`. -/
def shiftForDiv255 (v : Nat) : Nat := (v / 256 + v) / 256

/-- One pixel of Pillow's `Image.alpha_composite` (AlphaComposite.c,
integer implementation with `PRECISION_BITS = 7`): `src` drawn over `dst`.
A fully transparent source pixel leaves the destination pixel untouched;
otherwise the premultiplied fixed-point formula from the C source is used
(all intermediates fit their C types, so plain `Nat` arithmetic is exact). -/
def alphaBlendPix (dst src : Pix) : Pix :=
  let (dr, dg, db, da) := dst
  let (sr, sg, sb, sa) := src
  if sa = 0 then dst
  else
    let blend := da * (255 - sa)
    let outa255 := sa * 255 + blend
    let coef1 := sa * 255 * 255 * 128 / outa255
    let coef2 := 255 * 128 - coef1
    ( shiftForDiv255 (sr * coef1 + dr * coef2 + 128 * 128) / 128,
      shiftForDiv255 (sg * coef1 + dg * coef2 + 128 * 128) / 128,
      shiftForDiv255 (sb * coef1 + db * coef2 + 128 * 128) / 128,
      shiftForDiv255 (outa255 + 128) )

/-- `Image.alpha_composite(dst, src)`: raises `ValueError` when the two
images do not have the same size (both are RGBA throughout the embedding). -/
def alphaCompositeE (dst src : Img) : Except Unit Img :=
  if dst.w = src.w ∧ dst.h = src.h then
    .ok ⟨dst.w, dst.h, fun x y => alphaBlendPix (dst.px x y) (src.px x y)⟩
  else .error ()

/-- `Image.frombytes("RGBA", (ts, ts), pixels, "raw", "BGRA")`
(procreate_reader.py:552-554): byte `4*(y*ts+x)` is blue, `+1` green,
`+2` red, `+3` alpha; the caller guarantees `bs.length = ts*ts*4`. -/
def frombytesBGRA (ts : Nat) (bs : List Nat) : Img :=
  ⟨ts, ts, fun x y =>
    let i := 4 * (y * ts + x)
    (bs.getD (i + 2) 0, bs.getD (i + 1) 0, bs.getD i 0, bs.getD (i + 3) 0)⟩

/-- Pillow's per-band `point` lookup values are clipped to 0..255. -/
def clip8 (n : Int) : Nat := min n.toNat 255

/-- The opacity step of `composite_layers` (procreate_reader.py:603-606):
`r, g, b, a = img.split(); a = a.point(lambda x: int(x * op));
img = Image.merge("RGBA", (r, g, b, a))`.  Only the alpha band is mapped;
`int(x * op)` is truncation toward zero of the exact product (for the
opacities exercised by the claims, e.g. 1/2, Python float arithmetic is
exact, so the rational model coincides with the float computation). -/
def truncMul (a : Nat) (op : ℚ) : Int := ((a : Int) * op.num).tdiv (op.den : Int)

/-- The opacity map applied to one alpha value: `a * op` equals the
fraction `(a·op.num)/op.den` exactly, and `int(...)` truncates that exact
quotient toward zero (truncated division is invariant under the common
factor of the unreduced fraction), so `truncMul` is exactly `int(a*op)`. -/
def applyOpacity (op : ℚ) (img : Img) : Img :=
  ⟨img.w, img.h, fun x y =>
    ((img.px x y).1, (img.px x y).2.1, (img.px x y).2.2.1,
      clip8 (truncMul (img.px x y).2.2.2 op))⟩

/-! ## Tile codec chain (`load_layer_image`, procreate_reader.py:488-550)

`Lz4O`, `LzoO`, `ZlibO` are oracles for the external decompressors;
`none` models the library call raising (including `ImportError`). -/

/-- `lz4.block.decompress(data, uncompressed_size=u, dict=d)`. -/
abbrev Lz4O : Type := List Nat → Nat → List Nat → Option (List Nat)

/-- `lzo.decompress(data, False, expected)`. -/
abbrev LzoO : Type := List Nat → Nat → Option (List Nat)

/-- `zlib.decompress(data)`. -/
abbrev ZlibO : Type := List Nat → Option (List Nat)

/-- The 4-byte tag `b"bv41"` opening each chained sub-block. -/
def magic41 : List Nat := [98, 118, 52, 49]

/-- The 4-byte sentinel terminator tag `b"bv4$"`. -/
def magicEnd : List Nat := [98, 118, 52, 36]

/-- Little-endian unsigned 32-bit decode, `struct.unpack_from("<I", ...)`. -/
def le32 (b0 b1 b2 b3 : Nat) : Nat :=
  b0 + 256 * b1 + 65536 * b2 + 16777216 * b3

/-- Little-endian encoding of `n < 2^32` into 4 bytes. -/
def le32enc (n : Nat) : List Nat :=
  [n % 256, n / 256 % 256, n / 65536 % 256, n / 16777216 % 256]

/--
The `while off < len(raw)` loop of the bv41 branch
(procreate_reader.py:495-514), with the running offset `off` represented
by the remaining suffix `rem = raw[off:]` (every read in the source is at
an `off`-relative position and `off` only moves forward).  Returns the
`bv_parts` list collected from this point on; `none` models an exception
escaping the loop body (`struct.unpack_from` on a truncated header, or
`lz4.block.decompress` raising), which discards all parts.

* `rem = []`: the loop condition fails, the parts so far stand;
* the sentinel tag `b"bv4$"` or any tag other than `b"bv41"` breaks;
* otherwise the 4-byte declared uncompressed size and compressed size are
  read, `raw[off:off+c_size]` (a clipping slice) is decompressed with the
  previous decompressed chunk as `dict`, and the loop advances past the
  compressed payload.
-/
def bv41Go (lz4O : Lz4O) (rem : List Nat) (prevDict : List Nat) :
    Option (List (List Nat)) :=
  if rem.isEmpty then some []
  else if rem.take 4 = magicEnd then some []
  else if h4 : rem.take 4 = magic41 then
    let body := rem.drop 4
    match body.take 4 with
    | [b0, b1, b2, b3] =>
      let usize := le32 b0 b1 b2 b3
      let body2 := body.drop 4
      match body2.take 4 with
      | [c0, c1, c2, c3] =>
        let csize := le32 c0 c1 c2 c3
        let data := (body2.drop 4).take csize
        match lz4O data usize prevDict with
        | none => none
        | some chunk =>
          match bv41Go lz4O ((body2.drop 4).drop csize) chunk with
          | none => none
          | some rest => some (chunk :: rest)
      | _ => none
    | _ => none
  else some []
termination_by rem.length
decreasing_by
  have hlen4 : 4 ≤ rem.length := by
    have := congrArg List.length h4
    simp [magic41] at this
    omega
  simp only [List.drop_drop, List.length_drop]
  omega

/-- The whole bv41 branch of the decode chain: the collected parts, or
`none` when the attempt failed; a success is joined by `b"".join(bv_parts)`
at the use site. -/
def bv41Chunks (lz4O : Lz4O) (raw : List Nat) : Option (List (List Nat)) :=
  bv41Go lz4O raw []

/--
The codec chain of `load_layer_image` (procreate_reader.py:488-547),
producing the `pixels` value just before the final length check:

0. chained bv41 blocks, only tried when the input starts with the magic;
1. uncompressed data of exactly the expected size;
2. plain `lz4.block.decompress(raw, uncompressed_size=expected)`;
3. `lzo.decompress(raw, False, expected)`;
4. `zlib.decompress(raw)`.

Each later method runs only when `pixels is None` so far; a produced
value of the wrong length does *not* fall through (the length is checked
once, afterwards, in `tileDecode`).
-/
def chainPixels (lz4O : Lz4O) (lzoO : LzoO) (zlibO : ZlibO)
    (raw : List Nat) (expected : Int) : Option (List Nat) :=
  let p0 : Option (List Nat) :=
    if raw.take 4 = magic41 then (bv41Chunks lz4O raw).map List.flatten else none
  let p1 := p0 <|> (if (raw.length : Int) = expected then some raw else none)
  let p2 := p1 <|> lz4O raw expected.toNat []
  let p3 := p2 <|> lzoO raw expected.toNat
  p3 <|> zlibO raw

/-- The decode of one tile as performed by `load_layer_image`: the codec
chain followed by the single final length check
`if pixels is None or len(pixels) != expected_size: continue`
(procreate_reader.py:549). -/
def tileDecode (lz4O : Lz4O) (lzoO : LzoO) (zlibO : ZlibO)
    (raw : List Nat) (expected : Int) : Option (List Nat) :=
  match chainPixels lz4O lzoO zlibO raw expected with
  | none => none
  | some p => if (p.length : Int) = expected then some p else none

/-- Modelled from the spec (§4.4), for refinement comparison only: the
decode chain as the specification words it, where a step whose output
length does not exactly equal the expected size is *itself* treated as
failed and the next codec is attempted. -/
def tileDecodeSpec (lz4O : Lz4O) (lzoO : LzoO) (zlibO : ZlibO)
    (raw : List Nat) (expected : Int) : Option (List Nat) :=
  let ok : Option (List Nat) → Option (List Nat) := fun p =>
    match p with
    | some q => if (q.length : Int) = expected then some q else none
    | none => none
  let s0 :=
    ok (if raw.take 4 = magic41 then (bv41Chunks lz4O raw).map List.flatten else none)
  let s1 := s0 <|> ok (if (raw.length : Int) = expected then some raw else none)
  let s2 := s1 <|> ok (lz4O raw expected.toNat [])
  let s3 := s2 <|> ok (lzoO raw expected.toNat)
  s3 <|> ok (zlibO raw)

/-- Modelled from the spec (§4.4/§8, the chained-dictionary scheme), for
refinement comparison: given the sub-blocks as (declared uncompressed
size, compressed payload) pairs, decompress them in order, the first with
an empty dictionary and every later one with exactly the immediately
preceding decompressed output as dictionary; fail if any decompression
fails. -/
def chainSpecFrom (lz4O : Lz4O) (dict : List Nat) :
    List (Nat × List Nat) → Option (List (List Nat))
  | [] => some []
  | (u, d) :: rest =>
    match lz4O d u dict with
    | none => none
    | some chunk =>
      match chainSpecFrom lz4O chunk rest with
      | none => none
      | some tail => some (chunk :: tail)

/-- The chained sub-blocks, decoded per the spec's words. -/
def chainSpec (lz4O : Lz4O) (blocks : List (Nat × List Nat)) :
    Option (List (List Nat)) :=
  chainSpecFrom lz4O [] blocks

/-- Serialise sub-blocks in the on-disk chained format: each block is
`b"bv41" ++ <uncompressed size, LE32> ++ <compressed size, LE32> ++ payload`,
followed by a trailer (empty, or starting with the sentinel tag). -/
def encodeBlocks (trailer : List Nat) : List (Nat × List Nat) → List Nat
  | [] => trailer
  | (u, d) :: rest =>
    magic41 ++ le32enc u ++ le32enc d.length ++ d ++ encodeBlocks trailer rest

/-! ## Document state (`ProcreateFile.__init__` / `_load`)

`PZip` models the opened `zipfile.ZipFile`: the entry name list and a
byte reader (`none` models a missing entry / a read raising).  `PlistO`
models `plistlib.loads`, `PngO` models `PIL.Image.open(...).load()`
(`none` = the call raised, which every caller catches). -/

structure PZip : Type where
  names : List String
  content : String → Option (List Nat)

abbrev PlistO : Type := List Nat → Option PValue
abbrev PngO : Type := List Nat → Option Img

/-- `ProcreateLayer` (procreate_reader.py:26-46); opacity is a Python
float, modelled by its exact rational value. -/
structure PLayer : Type where
  name : String
  uuid : String
  opacity : ℚ
  visible : Bool
  blendMode : Int

/-- The mutable state of a `ProcreateFile` object: exactly the fields set
in `__init__` (procreate_reader.py:88-104) that the engine reads later,
with their initial values. -/
structure PFile : Type where
  zip : Option PZip := none
  thumbnail : Option Img := none
  compositeImg : Option Img := none
  layers : List PLayer := []
  canvasWidth : Int := 0
  canvasHeight : Int := 0
  dpi : Int := 132
  orientation : Int := 0
  colorProfile : String := "sRGB"
  layerCount : Nat := 0
  videoEnabled : Bool := false
  metadata : List (String × PValue) := []
  documentArchive : Option PValue := none
  archiveObjects : PValue := .arr []

/-- The state right after `self._zip = zipfile.ZipFile(...)`. -/
def initPFile (z : PZip) : PFile := { zip := some z }

/-- Python iteration `for x in v` over a plist value: lists yield their
elements, strings their characters (as 1-character strings), bytes their
byte values, dicts their keys; numbers, booleans and `UID`s raise
`TypeError`. -/
def PValue.pyIter : PValue → Except Unit (List PValue)
  | .arr xs => .ok xs
  | .str s => .ok (s.data.map fun c => .str (String.singleton c))
  | .bytes bs => .ok (bs.map fun b => .int (b : Int))
  | .dict d => .ok (d.map fun kv => .str kv.1)
  | _ => .error ()

/-- Python `needle in container` for a string needle: substring test on a
string, element equality on a list, key membership on a dict; raises
`TypeError` on numbers/bools/bytes/UID. -/
def pyInStr (needle : String) (container : PValue) : Except Unit Bool :=
  match container with
  | .str s =>
    .ok ((List.range (s.length + 1)).any fun i =>
      (s.data.drop i).take needle.length = needle.data)
  | .arr xs =>
    .ok (xs.any fun v => match v with | .str t => t = needle | _ => false)
  | .dict d => .ok (d.any fun kv => kv.1 = needle)
  | _ => .error ()

/-- Python `s.startswith(pre)`: character-based prefix test. -/
def strStartsWith (s pre : String) : Bool := pre.data.isPrefixOf s.data

/-- Python `s.endswith(suf)`: character-based suffix test. -/
def strEndsWith (s suf : String) : Bool := suf.data.isSuffixOf s.data

/-- Python `s.lower()` (ASCII case mapping suffices for the entry names
the engine compares). -/
def strToLower (s : String) : String := ⟨s.data.map Char.toLower⟩

/-- Python `s[n:]` (characters). -/
def strDrop (s : String) (n : Nat) : String := ⟨s.data.drop n⟩

/-- Python `s[:-n]` (characters). -/
def strDropRight (s : String) (n : Nat) : String :=
  ⟨s.data.take (s.data.length - n)⟩

/-- `s.split(sep)` for a one-character separator: splits at *every*
occurrence, keeping empty parts (`"a~~b".split("~") == ["a", "", "b"]`). -/
def splitOnCharGo (sep : Char) : List Char → List Char → List (List Char)
  | [], cur => [cur.reverse]
  | c :: rest, cur =>
    if c = sep then cur.reverse :: splitOnCharGo sep rest []
    else splitOnCharGo sep rest (c :: cur)

/-- Python `s.split(sep)` with a one-character separator string. -/
def pySplit1 (s : String) (sep : Char) : List String :=
  (splitOnCharGo sep s.data []).map fun cs => ⟨cs⟩

/-- The whitespace stripped by Python `int(str)` / `str.strip()`. -/
def isPySpace (c : Char) : Bool :=
  c = ' ' ∨ c = '\t' ∨ c = '\n' ∨ c = '\r' ∨ c = '\x0b' ∨ c = '\x0c'

/-- Python `s.strip()` on a character list. -/
def pyStrip (cs : List Char) : List Char :=
  ((cs.dropWhile isPySpace).reverse.dropWhile isPySpace).reverse

/-- `self._try_load_image(path)` (procreate_reader.py:160-168): read the
entry and decode it with PIL; every failure is caught and yields `None`. -/
def tryLoadImage (pngO : PngO) (z : PZip) (path : String) : Option Img :=
  match z.content path with
  | none => none
  | some bs => pngO bs

/-- First candidate path that loads as an image. -/
def tryFirstImage (pngO : PngO) (z : PZip) : List String → Option Img
  | [] => none
  | p :: rest =>
    match tryLoadImage pngO z p with
    | some img => some img
    | none => tryFirstImage pngO z rest

/-- The fallback scan of `_load_thumbnail` (procreate_reader.py:139-145):
first entry under `QuickLook/` ending in `.png` that loads. -/
def scanQuickLook (pngO : PngO) (z : PZip) : List String → Option Img
  | [] => none
  | n :: rest =>
    if strStartsWith n "QuickLook/" ∧ strEndsWith (strToLower n) ".png" then
      match tryLoadImage pngO z n with
      | some img => some img
      | none => scanQuickLook pngO z rest
    else scanQuickLook pngO z rest

/-- `ProcreateFile._load_thumbnail` (procreate_reader.py:126-145). -/
def loadThumbnail (pngO : PngO) (z : PZip) (st : PFile) : PFile :=
  match tryFirstImage pngO z
      ["QuickLook/Thumbnail.png", "QuickLook/thumbnail.png", "Thumbnail.png"] with
  | some img => { st with thumbnail := some img }
  | none =>
    match scanQuickLook pngO z z.names with
    | some img => { st with thumbnail := some img }
    | none => st

/-- `ProcreateFile._load_composite` (procreate_reader.py:147-158). -/
def loadComposite (pngO : PngO) (z : PZip) (st : PFile) : PFile :=
  match tryFirstImage pngO z
      ["QuickLook/Preview.png", "QuickLook/preview.png", "composite.png"] with
  | some img => { st with compositeImg := some img }
  | none => st

/-- `ProcreateFile._load_document_archive` (procreate_reader.py:172-181).
For each candidate entry name: a missing entry (`KeyError`) or a failing
`plistlib.loads` moves on to the next name.  On a successful parse,
`self._document_archive` is assigned *first*; `self._archive_objects` is
then taken from `.get("$objects", [])`, which raises `AttributeError` on
a non-dict value — the exception is caught and the loop continues, but
the `_document_archive` assignment survives. -/
def loadDocumentArchiveGo (plistO : PlistO) (z : PZip) (st : PFile) :
    List String → PFile
  | [] => st
  | p :: rest =>
    match z.content p with
    | none => loadDocumentArchiveGo plistO z st rest
    | some bs =>
      match plistO bs with
      | none => loadDocumentArchiveGo plistO z st rest
      | some v =>
        let st1 := { st with documentArchive := some v }
        match v with
        | .dict d => { st1 with archiveObjects := dictGetD d "$objects" (.arr []) }
        | _ => loadDocumentArchiveGo plistO z st1 rest

/-- The two case variants tried, in order. -/
def loadDocumentArchive (plistO : PlistO) (z : PZip) (st : PFile) : PFile :=
  loadDocumentArchiveGo plistO z st ["Document.archive", "document.archive"]

/-- `ProcreateFile._get_root_object` (procreate_reader.py:204-216).
Returns the entries of the root dict, or `none` for Python `None`.
Raises where the Python does: `.get` on a truthy non-dict archive or on a
non-dict `$top` value (`AttributeError`), `len()` on a non-sized
`_archive_objects` (`TypeError`), `[1]` on a dict with more than one
entry (`KeyError`, since plist dict keys are strings, never `1`). -/
def getRootObject (st : PFile) : Except Unit (Option (List (String × PValue))) := do
  match st.documentArchive with
  | none => .ok none
  | some da =>
    if da.truthy = false then .ok none
    else do
      let top : PValue ←
        match da with
        | .dict d => .ok (dictGetD d "$top" (.dict []))
        | _ => .error ()
      let rootUid : Option PValue ←
        match top with
        | .dict t => .ok (dictGet t "root")
        | _ => .error ()
      let root ← resolveUid st.archiveObjects rootUid
      match root with
      | some (.dict r) => .ok (some r)
      | _ => do
        let len ← st.archiveObjects.pyLen
        if 1 < len then
          match st.archiveObjects with
          | .arr xs =>
            match xs.getD 1 (.str "") with
            | .dict r => .ok (some r)
            | _ => .ok none
          | .str _ => .ok none
          | .bytes _ => .ok none
          | _ => .error ()
        else .ok none

/-! ## Metadata and layer extraction -/

/-- `ProcreateFile._get_int(d, keys)` (procreate_reader.py:268-281):
first present key wins; ints, floats and bools (`isinstance(v, int)` is
true for bools) convert with `int(...)`; byte blobs decode as a big-endian
signed 32-bit from the first four bytes, shorter blobs raise
`struct.error` which is caught (`pass`), falling through to the next key;
any other type also falls through.  The default is 0 at every call site. -/
def pyGetInt (d : List (String × PValue)) : List String → Int
  | [] => 0
  | k :: ks =>
    match dictGet d k with
    | none => pyGetInt d ks
    | some v =>
      match v with
      | .int n => n
      | .real q => ratTrunc q
      | .bool b => if b then 1 else 0
      | .bytes bs =>
        match bs with
        | b0 :: b1 :: b2 :: b3 :: _ => be32signed b0 b1 b2 b3
        | _ => pyGetInt d ks
      | _ => pyGetInt d ks

/-- `v in (False, None, "$null")` for a plist value `v`: Python `==`
equates `0`, `0.0` and `False`; no plist value equals `None`. -/
def isFalseLike : PValue → Bool
  | .int n => n = 0
  | .real q => q = 0
  | .bool b => !b
  | .str s => s = "$null"
  | _ => false

/-- `isinstance(v, (str, int, float, bool))`. -/
def isScalar : PValue → Bool
  | .str _ => true
  | .int _ => true
  | .real _ => true
  | .bool _ => true
  | _ => false

/-- `ProcreateFile._parse_metadata` (procreate_reader.py:220-266).
With no root object the method returns with the state untouched — in
particular the canvas dimensions stay 0 and the thumbnail fallback at
lines 237-240 is *not* reached. -/
def parseMetadata (st : PFile) : Except Unit PFile := do
  let root? ← getRootObject st
  match root? with
  | none => .ok st
  | some root =>
    let st := { st with
      canvasWidth := pyGetInt root
        ["SilicaDocumentArchiveDimensionWidth", "width", "canvasWidth", "tileSize"],
      canvasHeight := pyGetInt root
        ["SilicaDocumentArchiveDimensionHeight", "height", "canvasHeight"] }
    let st :=
      match st.thumbnail with
      | some t => if st.canvasWidth = 0 then { st with canvasWidth := (t.w : Int) } else st
      | none => st
    let st :=
      match st.thumbnail with
      | some t => if st.canvasHeight = 0 then { st with canvasHeight := (t.h : Int) } else st
      | none => st
    let dpi := pyGetInt root ["SilicaDocumentArchiveDPI", "dpi"]
    let st := if 0 < dpi then { st with dpi := dpi } else st
    let st := { st with
      orientation := pyGetInt root ["SilicaDocumentArchiveOrientation", "orientation"] }
    let st := { st with
      videoEnabled :=
        match dictGet root "SilicaDocumentVideoSegmentInfoKey" with
        | none => false
        | some v => !isFalseLike v }
    let cp ← resolveUid st.archiveObjects (dictGet root "SilicaDocumentArchiveICCProfileData")
    let st :=
      match cp with
      | some (.str s) => { st with colorProfile := s }
      | _ => st
    .ok { st with metadata := root.filter fun kv => isScalar kv.2 }

/-- `ProcreateFile._resolve_layer_field` (procreate_reader.py:355-366):
for each key with a non-`None` value, resolve it as a UID; a non-`None`,
non-dict resolution is returned; otherwise a plain string value is
returned as-is; otherwise the next key is tried. -/
def resolveLayerField (objs : PValue) (d : List (String × PValue)) :
    List String → Except Unit (Option PValue)
  | [] => .ok none
  | k :: ks => do
    match dictGet d k with
    | none => resolveLayerField objs d ks
    | some val => do
      let resolved ← resolveUid objs (some val)
      match resolved with
      | some (.dict _) =>
        match val with
        | .str s => .ok (some (.str s))
        | _ => resolveLayerField objs d ks
      | some r => .ok (some r)
      | none =>
        match val with
        | .str s => .ok (some (.str s))
        | _ => resolveLayerField objs d ks

/-- `float(v)` for the opacity value, after the
`isinstance(opacity, (int, float))` guard (bools included): anything else
was already replaced by `1.0`. -/
def opacityOf (v : PValue) : ℚ :=
  match v with
  | .int n => (n : ℚ)
  | .real q => q
  | .bool b => if b then 1 else 0
  | _ => 1

/-- `int(v)` for the blend value after its isinstance guard. -/
def blendOf (v : PValue) : Int :=
  match v with
  | .int n => n
  | .real q => ratTrunc q
  | .bool b => if b then 1 else 0
  | _ => 0

/-- One iteration of the layer loop in `_parse_layers`
(procreate_reader.py:306-347), appending to the accumulated layer list
(`self.layers`, whose current length names anonymous layers). -/
def parseOneLayer (objs : PValue) (acc : List PLayer) (ref : PValue) :
    Except Unit (List PLayer) := do
  let ld ← resolveUid objs (some ref)
  match ld with
  | some (.dict layerDict) => do
    let name? ← resolveLayerField objs layerDict ["name", "SilicaLayerArchiveName"]
    let name :=
      match name? with
      | some (.str s) => s
      | _ => "Layer " ++ toString (acc.length + 1)
    let uuid? ← resolveLayerField objs layerDict ["UUID", "uuid", "SilicaLayerArchiveUUID"]
    let uuid :=
      match uuid? with
      | some (.str s) => s
      | _ => ""
    let opacity := opacityOf (dictGetD layerDict "contentsOpacity"
      (dictGetD layerDict "opacity" (dictGetD layerDict "SilicaLayerArchiveOpacity" (.real 1))))
    let visible := !(dictGetD layerDict "hidden"
      (dictGetD layerDict "SilicaLayerArchiveHidden" (.bool false))).truthy
    let blend := blendOf (dictGetD layerDict "extendedBlend"
      (dictGetD layerDict "blend" (dictGetD layerDict "blendMode" (.int 0))))
    .ok (acc ++ [⟨name, uuid, opacity, visible, blend⟩])
  | _ => .ok acc

/-- One iteration of `_parse_layers_fallback` (procreate_reader.py:370-402):
objects whose resolved `$class` dict has a `$classname` containing
`"SilicaLayer"` become minimal layers with an empty identifier. -/
def fallbackStep (objs : PValue) (acc : List PLayer) (obj : PValue) :
    Except Unit (List PLayer) := do
  match obj with
  | .dict od =>
    match dictGet od "$class" with
    | none => .ok acc
    | some clsRef => do
      let clsObj ← resolveUid objs (some clsRef)
      match clsObj with
      | some (.dict cd) => do
        let classname := dictGetD cd "$classname" (.str "")
        let isLayerClass ← pyInStr "SilicaLayer" classname
        if isLayerClass = false then .ok acc
        else do
          let nameRef : Option PValue :=
            match dictGet od "name" with
            | some v => some v
            | none => dictGet od "SilicaLayerArchiveName"
          let name? ← resolveUid objs nameRef
          let name :=
            match name? with
            | some (.str s) => s
            | _ => "Layer " ++ toString (acc.length + 1)
          let opacity := opacityOf (dictGetD od "contentsOpacity"
            (dictGetD od "opacity" (.real 1)))
          let visible := !(dictGetD od "hidden" (.bool false)).truthy
          .ok (acc ++ [⟨name, "", opacity, visible, 0⟩])
      | _ => .ok acc
  | _ => .ok acc

/-- `ProcreateFile._parse_layers_fallback` (procreate_reader.py:368-402);
iterating a non-iterable `_archive_objects` raises `TypeError`. -/
def parseLayersFallback (st : PFile) : Except Unit PFile := do
  let objs ← st.archiveObjects.pyIter
  let layers ← objs.foldlM (fallbackStep st.archiveObjects) st.layers
  .ok { st with layers := layers }

/-- `ProcreateFile._parse_layers` (procreate_reader.py:285-353). -/
def parseLayers (st : PFile) : Except Unit PFile := do
  let root? ← getRootObject st
  match root? with
  | none => .ok st
  | some root => do
    let layersUid : Option PValue :=
      match dictGet root "SilicaDocumentArchiveLayers" with
      | some v => some v
      | none => dictGet root "layers"
    let layersRef ← resolveUid st.archiveObjects layersUid
    let objRefs : PValue :=
      match layersRef with
      | some (.dict d) => dictGetD d "NS.objects" (.arr [])
      | some (.arr xs) => .arr xs
      | _ => .arr []
    let refs ← objRefs.pyIter
    let layers ← refs.foldlM (parseOneLayer st.archiveObjects) st.layers
    let st := { st with layers := layers }
    let st ← if st.layers.isEmpty then parseLayersFallback st else .ok st
    .ok { st with
      layerCount := if st.layers.isEmpty then st.layerCount else st.layers.length }

/-- `ProcreateFile._load` after the ZIP archive has been opened
(procreate_reader.py:117-122); the `FileNotFoundError` / "not a ZIP"
checks in front of it concern the filesystem, not the engine. -/
def loadFromZip (plistO : PlistO) (pngO : PngO) (z : PZip) : Except Unit PFile := do
  let st := initPFile z
  let st := loadThumbnail pngO z st
  let st := loadComposite pngO z st
  let st := loadDocumentArchive plistO z st
  let st ← parseMetadata st
  parseLayers st

/-! ## Layer image loading and compositing -/

/-- Digits-and-underscores tail of Python `int(str)`: after a first
digit, digits continue the value and a single underscore must be followed
by a digit (`int("1_0") == 10`; `"1__0"`, `"1_"` are invalid). -/
def pyIntLoop : List Char → Nat → Option Nat
  | [], acc => some acc
  | c :: rest, acc =>
    if c.isDigit then pyIntLoop rest (acc * 10 + (c.toNat - 48))
    else if c = '_' then
      match rest with
      | d :: rest2 =>
        if d.isDigit then pyIntLoop rest2 (acc * 10 + (d.toNat - 48)) else none
      | [] => none
    else none

/-- Nonempty digit sequence start of Python `int(str)`. -/
def pyIntStart : List Char → Option Nat
  | [] => none
  | c :: rest => if c.isDigit then pyIntLoop rest (c.toNat - 48) else none

/-- Python `int(s)` on a string: surrounding whitespace is stripped, an
optional sign precedes ASCII digits with single underscores between
digits; anything else raises `ValueError` (`none`). -/
def pyInt (s : String) : Option Int :=
  match pyStrip s.data with
  | '-' :: rest => (pyIntStart rest).map fun n => -(n : Int)
  | '+' :: rest => (pyIntStart rest).map fun n => (n : Int)
  | cs => (pyIntStart cs).map fun n => (n : Int)

/-- The chunk-file filter of `load_layer_image`
(procreate_reader.py:432-439): entries under `<uuid>/` whose lowercased
name ends in `.chunk` or `.lz4`. -/
def chunkFilesOf (z : PZip) (uuid : String) : List String :=
  z.names.filter fun n =>
    strStartsWith n (uuid ++ "/") &&
      (strEndsWith (strToLower n) ".chunk" || strEndsWith (strToLower n) ".lz4")

/-- The tile-coordinate parsing of one chunk entry name
(procreate_reader.py:461-481): strip the `<uuid>/` namespace and the
first matching tile extension (lowercased comparison), split once on
`"~"` if present else on `"_"` if present, and `int(...)` both parts;
any failure skips the chunk (`continue`). -/
def parseTileName (pfxLen : Nat) (n : String) : Option (Int × Int) :=
  let basename := strDrop n pfxLen
  let namePart :=
    if strEndsWith (strToLower basename) ".chunk" then strDropRight basename 6
    else if strEndsWith (strToLower basename) ".lz4" then strDropRight basename 4
    else basename
  let parts? : Option (List String) :=
    if namePart.data.contains '~' then some (pySplit1 namePart '~')
    else if namePart.data.contains '_' then some (pySplit1 namePart '_')
    else none
  match parts? with
  | some [p0, p1] =>
    match pyInt p0, pyInt p1 with
    | some c, some r => some (c, r)
    | _, _ => none
  | _ => none

/-- The body of the chunk loop of `load_layer_image`
(procreate_reader.py:460-556) acting on the `(layer_img, loaded_any)`
state: parse the name, read the entry (a raised read is caught), decode
through the codec chain with the final exact-size check, convert the
BGRA bytes and paste at `(col*tile_size, row*tile_size)`. -/
def tileStep (lz4O : Lz4O) (lzoO : LzoO) (zlibO : ZlibO) (z : PZip)
    (pfxLen : Nat) (ts : Int) (acc : Img × Bool) (n : String) : Img × Bool :=
  match parseTileName pfxLen n with
  | none => acc
  | some (col, row) =>
    match z.content n with
    | none => acc
    | some raw =>
      match tileDecode lz4O lzoO zlibO raw (ts * ts * 4) with
      | none => acc
      | some pixels =>
        (acc.1.paste (frombytesBGRA ts.toNat pixels) (col * ts) (row * ts), true)

/-- `ProcreateFile._get_tile_size` (procreate_reader.py:406-416). -/
def getTileSize (st : PFile) : Except Unit Int := do
  let root? ← getRootObject st
  match root? with
  | some root =>
    let ts := pyGetInt root ["tileSize", "SilicaDocumentArchiveTileSize"]
    if 0 < ts then .ok ts else .ok 256
  | none => .ok 256

/-- The placeholder never read by `load_layer_image` (the index is
checked against the list length first). -/
def dummyLayer : PLayer := ⟨"Untitled", "", 1, true, 0⟩

/-- `ProcreateFile.load_layer_image(layer_index)`
(procreate_reader.py:418-563). -/
def loadLayerImage (lz4O : Lz4O) (lzoO : LzoO) (zlibO : ZlibO)
    (st : PFile) (layerIndex : Int) : Except Unit (Option Img) := do
  match st.zip with
  | none => .ok none
  | some z =>
    if layerIndex < 0 ∨ (st.layers.length : Int) ≤ layerIndex then .ok none
    else
      let layer := st.layers.getD layerIndex.toNat dummyLayer
      if layer.uuid = "" then .ok none
      else
        let chunkFiles := chunkFilesOf z layer.uuid
        if chunkFiles.isEmpty then .ok none
        else do
          let ts0 ← getTileSize st
          let ts := if ts0 ≤ 0 then 256 else ts0
          let w := st.canvasWidth
          let h := st.canvasHeight
          if w ≤ 0 ∨ h ≤ 0 then .ok none
          else
            let cols := max 1 ((w + ts - 1) / ts)
            let rows := max 1 ((h + ts - 1) / ts)
            let start := Img.new (cols * ts).toNat (rows * ts).toNat (0, 0, 0, 0)
            let res := chunkFiles.foldl
              (tileStep lz4O lzoO zlibO z (layer.uuid ++ "/").length ts) (start, false)
            if res.2 = false then .ok none
            else if res.1.w = w.toNat ∧ res.1.h = h.toNat then .ok (some res.1)
            else .ok (some (res.1.crop0 w.toNat h.toNat))

/-- The effective visibility of layer `i` in `composite_layers`
(procreate_reader.py:589-593): the override entry wins when the override
dict is truthy (non-empty) and contains the index, else the native flag. -/
def effVisible (o : Option (List (Nat × Bool))) (i : Nat) (layer : PLayer) : Bool :=
  match o with
  | none => layer.visible
  | some m =>
    if m.isEmpty then layer.visible
    else
      match m.lookup i with
      | some v => v
      | none => layer.visible

/-- The body of the layer loop of `composite_layers`
(procreate_reader.py:589-608) on the `(result, loaded_any)` state. -/
def compStep (lz4O : Lz4O) (lzoO : LzoO) (zlibO : ZlibO) (st : PFile)
    (o : Option (List (Nat × Bool))) (acc : Img × Bool) (p : Nat × PLayer) :
    Except Unit (Img × Bool) := do
  if effVisible o p.1 p.2 = false then .ok acc
  else do
    let li ← loadLayerImage lz4O lzoO zlibO st (p.1 : Int)
    match li with
    | none => .ok acc
    | some img0 =>
      let img := if p.2.opacity < 1 then applyOpacity p.2.opacity img0 else img0
      let res ← alphaCompositeE acc.1 img
      .ok (res, true)

/-- `ProcreateFile.composite_layers(visibility_overrides)`
(procreate_reader.py:565-610).  The overrides dict (string of Python type
`Dict[int, bool]`) is modelled as an association list with unique keys;
`o = none` models passing `None` (the default). -/
def compositeLayers (lz4O : Lz4O) (lzoO : LzoO) (zlibO : ZlibO)
    (st : PFile) (o : Option (List (Nat × Bool))) : Except Unit (Option Img) := do
  if st.layers.isEmpty then .ok none
  else if st.canvasWidth ≤ 0 ∨ st.canvasHeight ≤ 0 then .ok none
  else do
    let start := Img.new st.canvasWidth.toNat st.canvasHeight.toNat (255, 255, 255, 0)
    let res ← st.layers.enum.foldlM (compStep lz4O lzoO zlibO st o) (start, false)
    if res.2 then .ok (some res.1) else .ok none


/-! ## Shared concrete instances and helper lemmas -/

/-- A decompressor that always raises. -/
def lz4None : Lz4O := fun _ _ _ => none

/-- An `lzo` decompressor that always raises. -/
def lzoNone : LzoO := fun _ _ => none

/-- A `zlib` decompressor that always raises. -/
def zlibNone : ZlibO := fun _ => none

theorem foldlM_compStep_hidden (lz4O : Lz4O) (lzoO : LzoO) (zlibO : ZlibO)
    (st : PFile) (o : Option (List (Nat × Bool))) (l : List (Nat × PLayer))
    (acc : Img × Bool) (h : ∀ p ∈ l, effVisible o p.1 p.2 = false) :
    l.foldlM (compStep lz4O lzoO zlibO st o) acc = .ok acc := by
  induction l with
  | nil => rfl
  | cons p rest ih =>
    have hp : effVisible o p.1 p.2 = false := h p (List.mem_cons_self p rest)
    have hstep : compStep lz4O lzoO zlibO st o acc p = .ok acc := by
      unfold compStep
      simp [hp]
    rw [List.foldlM_cons, hstep]
    show rest.foldlM (compStep lz4O lzoO zlibO st o) acc = .ok acc
    exact ih fun q hq => h q (List.mem_cons_of_mem p hq)

theorem fst_le_of_mem_enumFrom {α : Type} (l : List α) (n : Nat)
    (p : Nat × α) (hp : p ∈ l.enumFrom n) : n ≤ p.1 := by
  induction l generalizing n with
  | nil => simp [List.enumFrom] at hp
  | cons x xs ih =>
    simp only [List.enumFrom, List.mem_cons] at hp
    rcases hp with h | h
    · subst h; exact le_refl n
    · exact Nat.le_of_succ_le (ih (n + 1) h)

theorem fst_lt_of_mem_enumFrom {α : Type} (l : List α) (n : Nat)
    (p : Nat × α) (hp : p ∈ l.enumFrom n) : p.1 < n + l.length := by
  induction l generalizing n with
  | nil => simp [List.enumFrom] at hp
  | cons x xs ih =>
    simp only [List.enumFrom, List.mem_cons] at hp
    rcases hp with h | h
    · subst h; simp
    · have := ih (n + 1) h
      simp only [List.length_cons]
      omega

/-- C5 (part): out-of-bounds reference resolution on a list-shaped object
graph returns Python `None` (no exception), for every graph including the
empty one, both for raw-int references and for `plistlib.UID` references. -/
theorem resolveUid_out_of_bounds
    (objs : List Procreate.PValue) (i : Int) (n : Nat)
    (hi : (objs.length : Int) ≤ i) (hn : objs.length ≤ n) :
    Procreate.resolveUid (.arr objs) (some (.int i)) = .ok none ∧
    Procreate.resolveUid (.arr objs) (some (.uid n)) = .ok none := by
  constructor
  · unfold Procreate.resolveUid
    simp only [Procreate.PValue.pyLen]
    by_cases h0 : 0 ≤ i
    · simp [h0, bind, Except.bind, not_lt.mpr hi]
    · simp [h0]
  · unfold Procreate.resolveUid
    simp only [Procreate.PValue.pyLen]
    have h0 : 0 ≤ (n : Int) := Int.ofNat_nonneg n
    have hlt : ¬ (n < objs.length) := not_lt.mpr hn
    simp [h0, bind, Except.bind, hlt]

/-- Witness for C5: the empty graph with index 0 (both reference forms). -/
theorem resolveUid_out_of_bounds_witness :
    resolveUid (.arr []) (some (.int 0)) = .ok none ∧
    resolveUid (.arr []) (some (.uid 0)) = .ok none :=
  resolveUid_out_of_bounds [] 0 0 (by decide) (by decide)

/-- C10: `load_layer_image` returns `None` (and raises nothing) for every
negative or too-large layer index, and for every layer whose identifier is
the empty string — regardless of the decompressor behaviour and of the
rest of the state. -/
theorem loadLayerImage_invalid_or_anonymous (lz4O : Lz4O) (lzoO : LzoO)
    (zlibO : ZlibO) (st : PFile) (i : Int) :
    (i < 0 ∨ (st.layers.length : Int) ≤ i →
      loadLayerImage lz4O lzoO zlibO st i = .ok none) ∧
    ((st.layers.getD i.toNat dummyLayer).uuid = "" →
      loadLayerImage lz4O lzoO zlibO st i = .ok none) := by
  constructor
  · intro h
    unfold loadLayerImage
    match st.zip with
    | none => rfl
    | some z => simp [h]
  · intro h
    unfold loadLayerImage
    match st.zip with
    | none => rfl
    | some z =>
      by_cases hb : i < 0 ∨ (st.layers.length : Int) ≤ i
      · simp [hb]
      · simp only [List.getD_eq_getElem?_getD] at h
        simp [hb, h]

/-- Witness for C10: a single-layer state with an empty identifier; index
5 is out of bounds and index 0 names the anonymous layer. -/
theorem loadLayerImage_invalid_or_anonymous_witness :
    loadLayerImage lz4None lzoNone zlibNone { layers := [⟨"L", "", 1, true, 0⟩] } 5
        = .ok none ∧
    loadLayerImage lz4None lzoNone zlibNone { layers := [⟨"L", "", 1, true, 0⟩] } 0
        = .ok none := by
  constructor
  · exact (loadLayerImage_invalid_or_anonymous lz4None lzoNone zlibNone
      { layers := [⟨"L", "", 1, true, 0⟩] } 5).1 (by norm_num)
  · exact (loadLayerImage_invalid_or_anonymous lz4None lzoNone zlibNone
      { layers := [⟨"L", "", 1, true, 0⟩] } 0).2 (by rfl)

/-- A zero-layer document state with a declared 2×2 canvas. -/
def stZeroLayers : PFile := { canvasWidth := 2, canvasHeight := 2 }

/-- Counterexample to C2 as stated: for a zero-layer document with a
declared 2×2 canvas, `composite_layers` under hide-all overrides (the
empty override dict) returns `None`, not a fully transparent 2×2 RGBA
canvas — no image at all is produced. -/
theorem compositeLayers_hide_all_counterexample :
    ¬ ∃ img : Img, compositeLayers lz4None lzoNone zlibNone stZeroLayers (some [])
        = .ok (some img) := by
  intro ⟨img, himg⟩
  simp [compositeLayers, stZeroLayers] at himg

/-- C2 (amended): for every state and every override dict that assigns
`False` to every layer index, `composite_layers` returns `None` —
including the zero-layer case — rather than a transparent canvas. -/
theorem compositeLayers_hide_all (lz4O : Lz4O) (lzoO : LzoO) (zlibO : ZlibO)
    (st : PFile) (m : List (Nat × Bool))
    (hm : ∀ i < st.layers.length, m.lookup i = some false) :
    compositeLayers lz4O lzoO zlibO st (some m) = .ok none := by
  unfold compositeLayers
  by_cases hl : st.layers.isEmpty
  · simp [hl]
  · simp only [hl, Bool.false_eq_true, if_false]
    by_cases hwh : st.canvasWidth ≤ 0 ∨ st.canvasHeight ≤ 0
    · simp [hwh]
    · have hfold := foldlM_compStep_hidden lz4O lzoO zlibO st (some m)
        st.layers.enum
        (Img.new st.canvasWidth.toNat st.canvasHeight.toNat (255, 255, 255, 0), false)
        (by
          intro p hp
          have hlt : p.1 < st.layers.length := by
            have := fst_lt_of_mem_enumFrom st.layers 0 p (by simpa [List.enum] using hp)
            omega
          have hlk := hm p.1 hlt
          have hne : m.isEmpty = false := by
            cases m with
            | nil => simp [List.lookup] at hlk
            | cons q qs => rfl
          simp [effVisible, hne, hlk])
      simp [hwh, hfold, bind, Except.bind]

/-- Witness for C2: one visible layer, hidden by the override `{0: False}`;
the composite is `None`. -/
theorem compositeLayers_hide_all_witness :
    compositeLayers lz4None lzoNone zlibNone
      { layers := [⟨"L", "L1", 1, true, 0⟩], canvasWidth := 2, canvasHeight := 2 }
      (some [(0, false)]) = .ok none := by
  apply compositeLayers_hide_all
  intro i hi
  match i, hi with
  | 0, _ => rfl

theorem foldlM_congr_mem {α β : Type} (l : List α)
    (f g : β → α → Except Unit β) (acc : β)
    (h : ∀ x ∈ l, ∀ a, f a x = g a x) :
    l.foldlM f acc = l.foldlM g acc := by
  induction l generalizing acc with
  | nil => rfl
  | cons x xs ih =>
    rw [List.foldlM_cons, List.foldlM_cons, h x (List.mem_cons_self x xs) acc]
    cases g acc x with
    | error e => rfl
    | ok a =>
      show xs.foldlM f a = xs.foldlM g a
      exact ih a (fun y hy b => h y (List.mem_cons_of_mem x hy) b)

/-- The explicit override dict recording every layer's native visibility
flag under its index. -/
def nativeOverrides (st : PFile) : List (Nat × Bool) :=
  st.layers.enum.map fun p => (p.1, p.2.visible)

theorem lookup_map_enumFrom_visible (l : List PLayer) (n : Nat)
    (p : Nat × PLayer) (hp : p ∈ l.enumFrom n) :
    ((l.enumFrom n).map fun q => (q.1, q.2.visible)).lookup p.1
      = some p.2.visible := by
  induction l generalizing n with
  | nil => simp [List.enumFrom] at hp
  | cons x xs ih =>
    simp only [List.enumFrom, List.mem_cons] at hp
    rcases hp with h | h
    · subst h
      simp [List.lookup]
    · have hge : n + 1 ≤ p.1 := fst_le_of_mem_enumFrom xs (n + 1) p h
      have hne : (p.1 == n) = false := by
        simp only [beq_eq_false_iff_ne, ne_eq]
        omega
      simp only [List.enumFrom, List.map_cons, List.lookup, hne]
      exact ih (n + 1) h

/-- C8: passing an empty overrides dict reproduces default rendering — it
equals both compositing with no overrides at all and compositing under an
explicit dict recording each layer's native visibility flag. -/
theorem compositeLayers_empty_overrides (lz4O : Lz4O) (lzoO : LzoO)
    (zlibO : ZlibO) (st : PFile) :
    compositeLayers lz4O lzoO zlibO st (some []) =
      compositeLayers lz4O lzoO zlibO st none ∧
    compositeLayers lz4O lzoO zlibO st (some (nativeOverrides st)) =
      compositeLayers lz4O lzoO zlibO st none := by
  constructor
  · have hstep : compStep lz4O lzoO zlibO st (some []) =
        compStep lz4O lzoO zlibO st none := by
      funext acc p
      rfl
    unfold compositeLayers
    rw [hstep]
  · by_cases hl : st.layers.isEmpty
    · unfold compositeLayers
      simp [hl]
    · have hfold : ∀ acc, st.layers.enum.foldlM
          (compStep lz4O lzoO zlibO st (some (nativeOverrides st))) acc =
          st.layers.enum.foldlM (compStep lz4O lzoO zlibO st none) acc := by
        intro acc
        apply foldlM_congr_mem
        intro p hp a
        have hvis : effVisible (some (nativeOverrides st)) p.1 p.2 = p.2.visible := by
          have hlk : (nativeOverrides st).lookup p.1 = some p.2.visible := by
            unfold nativeOverrides
            have : st.layers.enum = st.layers.enumFrom 0 := rfl
            rw [this]
            exact lookup_map_enumFrom_visible st.layers 0 p (by
              rw [← this]; exact hp)
          have hne : (nativeOverrides st).isEmpty = false := by
            cases hcase : nativeOverrides st with
            | nil => rw [hcase] at hlk; simp [List.lookup] at hlk
            | cons q qs => rfl
          simp [effVisible, hne, hlk]
        unfold compStep
        rw [hvis]
        rfl
      by_cases hwh : st.canvasWidth ≤ 0 ∨ st.canvasHeight ≤ 0
      · unfold compositeLayers
        simp [hwh]
      · unfold compositeLayers
        simp only [hl, hwh, Bool.false_eq_true, if_false]
        rw [hfold]

theorem loadThumbnail_only_thumbnail (pngO : PngO) (z : PZip) (st : PFile) :
    (loadThumbnail pngO z st).documentArchive = st.documentArchive ∧
    (loadThumbnail pngO z st).canvasWidth = st.canvasWidth ∧
    (loadThumbnail pngO z st).canvasHeight = st.canvasHeight ∧
    (loadThumbnail pngO z st).layers = st.layers ∧
    (loadThumbnail pngO z st).layerCount = st.layerCount := by
  unfold loadThumbnail
  cases tryFirstImage pngO z
      ["QuickLook/Thumbnail.png", "QuickLook/thumbnail.png", "Thumbnail.png"] with
  | some img => exact ⟨rfl, rfl, rfl, rfl, rfl⟩
  | none =>
    cases scanQuickLook pngO z z.names with
    | some img => exact ⟨rfl, rfl, rfl, rfl, rfl⟩
    | none => exact ⟨rfl, rfl, rfl, rfl, rfl⟩

theorem loadComposite_only_composite (pngO : PngO) (z : PZip) (st : PFile) :
    (loadComposite pngO z st).documentArchive = st.documentArchive ∧
    (loadComposite pngO z st).canvasWidth = st.canvasWidth ∧
    (loadComposite pngO z st).canvasHeight = st.canvasHeight ∧
    (loadComposite pngO z st).layers = st.layers ∧
    (loadComposite pngO z st).layerCount = st.layerCount := by
  unfold loadComposite
  cases tryFirstImage pngO z
      ["QuickLook/Preview.png", "QuickLook/preview.png", "composite.png"] with
  | some img => exact ⟨rfl, rfl, rfl, rfl, rfl⟩
  | none => exact ⟨rfl, rfl, rfl, rfl, rfl⟩

theorem loadDocumentArchiveGo_all_fail (plistO : PlistO) (z : PZip) (st : PFile)
    (paths : List String)
    (h : ∀ p ∈ paths, ∀ bs, z.content p = some bs → plistO bs = none) :
    loadDocumentArchiveGo plistO z st paths = st := by
  induction paths with
  | nil => rfl
  | cons p rest ih =>
    unfold loadDocumentArchiveGo
    cases hc : z.content p with
    | none => exact ih fun q hq => h q (List.mem_cons_of_mem p hq)
    | some bs =>
      dsimp only
      rw [h p (List.mem_cons_self p rest) bs hc]
      exact ih fun q hq => h q (List.mem_cons_of_mem p hq)

theorem getRootObject_no_archive (st : PFile) (h : st.documentArchive = none) :
    getRootObject st = .ok none := by
  unfold getRootObject
  rw [h]

theorem parseMetadata_no_archive (st : PFile) (h : st.documentArchive = none) :
    parseMetadata st = .ok st := by
  unfold parseMetadata
  rw [getRootObject_no_archive st h]
  rfl

theorem parseLayers_no_archive (st : PFile) (h : st.documentArchive = none) :
    parseLayers st = .ok st := by
  unfold parseLayers
  rw [getRootObject_no_archive st h]
  rfl

/-- C3 (amended): when every candidate metadata entry is missing or fails
to decode, `open` still succeeds and the document has zero layers — but
its canvas dimensions are 0×0: the thumbnail fallback (lines 237-240) is
never reached because `_parse_metadata` returns as soon as there is no
root object. -/
theorem loadFromZip_malformed_metadata (plistO : PlistO) (pngO : PngO) (z : PZip)
    (h : ∀ p ∈ ["Document.archive", "document.archive"],
      ∀ bs, z.content p = some bs → plistO bs = none) :
    ∃ st, loadFromZip plistO pngO z = .ok st ∧
      st.canvasWidth = 0 ∧ st.canvasHeight = 0 ∧
      st.layers = [] ∧ st.layerCount = 0 := by
  have h1 := loadThumbnail_only_thumbnail pngO z (initPFile z)
  have h2 := loadComposite_only_composite pngO z (loadThumbnail pngO z (initPFile z))
  have hda : (loadComposite pngO z (loadThumbnail pngO z (initPFile z))).documentArchive
      = none := by
    rw [h2.1, h1.1]
    rfl
  have hgo := loadDocumentArchiveGo_all_fail plistO z
    (loadComposite pngO z (loadThumbnail pngO z (initPFile z)))
    ["Document.archive", "document.archive"] h
  refine ⟨loadComposite pngO z (loadThumbnail pngO z (initPFile z)),
    ?_, ?_, ?_, ?_, ?_⟩
  · unfold loadFromZip loadDocumentArchive
    dsimp only
    rw [hgo, parseMetadata_no_archive _ hda]
    show parseLayers _ = _
    exact parseLayers_no_archive _ hda
  · rw [h2.2.1, h1.2.1]
    rfl
  · rw [h2.2.2.1, h1.2.2.1]
    rfl
  · rw [h2.2.2.2.1, h1.2.2.2.1]
    rfl
  · rw [h2.2.2.2.2, h1.2.2.2.2]
    rfl

/-- The 10×7 thumbnail of the C3 counterexample container. -/
def thumbTen : Img := ⟨10, 7, fun _ _ => (0, 0, 0, 0)⟩

/-- A container with a loadable 10×7 thumbnail and a `Document.archive`
entry holding garbage bytes. -/
def zGarbageMeta : PZip :=
  ⟨["QuickLook/Thumbnail.png", "Document.archive"],
   fun n =>
     if n = "QuickLook/Thumbnail.png" then some [1]
     else if n = "Document.archive" then some [9] else none⟩

/-- A PIL oracle that decodes only the thumbnail bytes of `zGarbageMeta`. -/
def pngTen : PngO := fun bs => if bs = [1] then some thumbTen else none

/-- A `plistlib.loads` oracle that raises on every input (garbage bytes). -/
def plistFail : PlistO := fun _ => none

/-- Counterexample to C3 as stated: opening `zGarbageMeta` succeeds and
yields zero layers, and the 10×7 thumbnail was loaded — but the canvas
dimensions are 0×0, *not* the thumbnail's (the claimed thumbnail fallback
does not happen for malformed metadata). -/
theorem loadFromZip_malformed_metadata_counterexample :
    ∃ st, loadFromZip plistFail pngTen zGarbageMeta = .ok st ∧
      st.thumbnail = some thumbTen ∧ st.layers = [] ∧
      thumbTen.w = 10 ∧ st.canvasWidth ≠ (thumbTen.w : Int) := by
  refine ⟨_, rfl, rfl, rfl, rfl, by decide⟩

/-- Witness for C3 (amended) at the concrete garbage-metadata container. -/
theorem loadFromZip_malformed_metadata_witness :
    ∃ st, loadFromZip plistFail pngTen zGarbageMeta = .ok st ∧
      st.canvasWidth = 0 ∧ st.canvasHeight = 0 ∧
      st.layers = [] ∧ st.layerCount = 0 :=
  loadFromZip_malformed_metadata plistFail pngTen zGarbageMeta
    (by
      intro p hp bs hbs
      rfl)

theorem le32_le32enc (n : Nat) (h : n < 4294967296) :
    le32 (n % 256) (n / 256 % 256) (n / 65536 % 256) (n / 16777216 % 256) = n := by
  unfold le32
  omega

/-- The decode loop on a serialised block stream equals the spec-side
chain from the same starting dictionary, for every starting dictionary. -/
theorem bv41Go_encodeBlocks (lz4O : Lz4O) (blocks : List (Nat × List Nat))
    (trailer : List Nat) (dict : List Nat)
    (hb : ∀ p ∈ blocks, p.1 < 4294967296 ∧ p.2.length < 4294967296)
    (ht : trailer = [] ∨ trailer.take 4 = magicEnd) :
    bv41Go lz4O (encodeBlocks trailer blocks) dict = chainSpecFrom lz4O dict blocks := by
  induction blocks generalizing dict with
  | nil =>
    rcases ht with h | h
    · subst h
      rw [bv41Go]
      rfl
    · rw [bv41Go]
      cases htr : trailer with
      | nil => rfl
      | cons t ts =>
        rw [htr] at h
        simp [encodeBlocks, h, chainSpecFrom]
  | cons b rest ih =>
    obtain ⟨u, d⟩ := b
    have hu : u < 4294967296 := (hb (u, d) (List.mem_cons_self _ _)).1
    have hd : d.length < 4294967296 := (hb (u, d) (List.mem_cons_self _ _)).2
    have hru := le32_le32enc u hu
    have hrd := le32_le32enc d.length hd
    rw [bv41Go, encodeBlocks]
    simp only [magic41, magicEnd, le32enc, List.cons_append, List.nil_append,
      List.isEmpty_cons, List.take_succ_cons, List.take_zero, List.drop_succ_cons,
      List.drop_zero, Bool.false_eq_true, if_false, hru, hrd]
    have hne : (98 :: 118 :: 52 :: 49 :: List.take 0 (d ++ encodeBlocks trailer rest)
        : List ℕ) ≠ [98, 118, 52, 36] := by
      intro hcon
      have := List.cons.inj hcon
      have h2 := List.cons.inj this.2
      have h3 := List.cons.inj h2.2
      have h4 := List.cons.inj h3.2
      omega
    rw [if_neg (by simpa using hne)]
    rw [dif_pos trivial]
    rw [List.take_left, List.drop_left]
    cases hc : lz4O d u dict with
    | none =>
      rw [chainSpecFrom, hc]
    | some chunk =>
      rw [chainSpecFrom, hc]
      dsimp only
      rw [ih chunk fun p hp => hb p (List.mem_cons_of_mem _ hp)]

/--
C1: on every well-formed chained-block input — a serialised sequence of
length-prefixed sub-blocks (header fields within 32 bits) terminated by
the sentinel tag or by the end of the input — the decoder's block list
equals the specification's chained-dictionary decode: the first sub-block
is decompressed with the empty dictionary and each later one with exactly
the immediately preceding sub-block's decompressed output (`chainSpec`,
written from the spec's words — not the original input, not an
accumulation), and the produced pixel value is the concatenation of the
decompressed sub-blocks.
-/
theorem bv41_chained_decode (lz4O : Lz4O) (blocks : List (Nat × List Nat))
    (trailer : List Nat)
    (hb : ∀ p ∈ blocks, p.1 < 4294967296 ∧ p.2.length < 4294967296)
    (ht : trailer = [] ∨ trailer.take 4 = magicEnd) :
    bv41Chunks lz4O (encodeBlocks trailer blocks) = chainSpec lz4O blocks ∧
    ∀ parts, chainSpec lz4O blocks = some parts →
      (bv41Chunks lz4O (encodeBlocks trailer blocks)).map List.flatten
        = some parts.flatten := by
  have hgo := bv41Go_encodeBlocks lz4O blocks trailer [] hb ht
  refine ⟨hgo, ?_⟩
  intro parts hparts
  rw [bv41Chunks, hgo, chainSpec] at *
  rw [hparts]
  rfl

/-- A decompressor oracle that accepts exactly the two chained fixture
blocks, each only with the dictionary the chaining scheme prescribes. -/
def lz4Chained : Lz4O := fun data u dict =>
  if data = [10] ∧ u = 3 ∧ dict = [] then some [1, 2, 3]
  else if data = [20, 30] ∧ u = 2 ∧ dict = [1, 2, 3] then some [4, 5]
  else none

/-- Witness for C1: a two-block fixture with the sentinel trailer; the
decoder output exists only because the second block was decompressed with
the first block's output `[1, 2, 3]` as dictionary (the oracle refuses
any other dictionary). -/
theorem bv41_chained_decode_witness :
    bv41Chunks lz4Chained (encodeBlocks magicEnd [(3, [10]), (2, [20, 30])])
      = some [[1, 2, 3], [4, 5]] := by
  rw [(bv41_chained_decode lz4Chained [(3, [10]), (2, [20, 30])] magicEnd
    (by decide) (Or.inr (by decide))).1]
  rfl

/-- A 12-byte chained stream declaring an uncompressed size of
`2^32 − 1` with an empty compressed payload. -/
def rawHugeDecl : List Nat := magic41 ++ le32enc 4294967295 ++ le32enc 0

/-- A decompressor that answers only when asked for the maximal declared
size — so a successful decode proves the declared size reached it. -/
def lz4Huge : Lz4O := fun _ u _ => if u = 4294967295 then some [42] else none

theorem bv41_rawHugeDecl_eval : bv41Chunks lz4Huge rawHugeDecl = some [[42]] := by
  rw [bv41Chunks, bv41Go]
  simp only [rawHugeDecl, magic41, magicEnd, le32enc, List.cons_append,
    List.nil_append, List.isEmpty_cons, List.take_succ_cons, List.take_zero,
    List.drop_succ_cons, List.drop_zero, Bool.false_eq_true, if_false]
  norm_num [lz4Huge, le32]
  rw [bv41Go]
  rfl

/-- Counterexample to C9 as stated: on a malformed input whose declared
uncompressed size is `2^32 − 1` (beyond any reasonable bound), decoding
does not fail fast with a decode failure — the declared size is passed to
the decompressor unchecked and the decode *succeeds*. -/
theorem bv41_no_size_bound_counterexample :
    bv41Chunks lz4Huge rawHugeDecl = some [[42]] ∧
    bv41Chunks lz4Huge rawHugeDecl ≠ none := by
  refine ⟨bv41_rawHugeDecl_eval, ?_⟩
  rw [bv41_rawHugeDecl_eval]
  intro hcon
  cases hcon

theorem bv41Go_count_le (lz4O : Lz4O) :
    ∀ (n : Nat) (rem dict : List Nat) (parts : List (List Nat)),
      rem.length ≤ n → bv41Go lz4O rem dict = some parts →
      12 * parts.length ≤ rem.length := by
  intro n
  induction n with
  | zero =>
    intro rem dict parts hlen h
    have hnil : rem = [] := List.length_eq_zero.mp (Nat.le_zero.mp hlen)
    subst hnil
    rw [bv41Go] at h
    simp only [List.isEmpty_nil, if_true] at h
    cases h
    simp
  | succ k ih =>
    intro rem dict parts hlen h
    rw [bv41Go] at h
    split at h
    · cases h
      simp
    · split at h
      · cases h
        simp
      · split at h
        · simp only [] at h
          split at h
          next b0 b1 b2 b3 hu =>
            split at h
            next c0 c1 c2 c3 hc =>
              split at h
              next hlz => cases h
              next chunk hlz =>
                split at h
                next hrec => cases h
                next tail hrec =>
                  cases h
                  have hlen8 : 8 ≤ rem.length := by
                    have := congrArg List.length hu
                    simp at this
                    omega
                  have hlen12 : 12 ≤ rem.length := by
                    have := congrArg List.length hc
                    simp at this
                    omega
                  have hrem' :
                      (List.drop (le32 c0 c1 c2 c3)
                        (List.drop 4 (List.drop 4 (List.drop 4 rem)))).length
                        = rem.length - 12 - le32 c0 c1 c2 c3 := by
                    simp only [List.length_drop]
                    omega
                  have htail := ih
                    (List.drop (le32 c0 c1 c2 c3)
                      (List.drop 4 (List.drop 4 (List.drop 4 rem))))
                    chunk tail (by rw [hrem']; omega) hrec
                  rw [hrem'] at htail
                  simp only [List.length_cons]
                  omega
            next x hc => cases h
          next x hu => cases h
        · cases h
          simp

/-- C9 (amended): the chained-block loop enforces *no* explicit bound on
the declared uncompressed size (the counterexample shows `2^32 − 1`
reaching the decompressor and the decode succeeding) and no explicit
sub-block count bound; it cannot loop indefinitely, however, because
every decoded sub-block consumes at least the 12 header bytes of input,
so the number of decoded sub-blocks is bounded by `len(input) / 12`. -/
theorem bv41_block_count_bound (lz4O : Lz4O) (raw : List Nat)
    (parts : List (List Nat)) (h : bv41Chunks lz4O raw = some parts) :
    12 * parts.length ≤ raw.length :=
  bv41Go_count_le lz4O raw.length raw [] parts le_rfl h

/-- Witness for C9 (amended) at the oversized-declaration input: one
block decoded from 12 bytes of input. -/
theorem bv41_block_count_bound_witness :
    12 * ([[42]] : List (List Nat)).length ≤ rawHugeDecl.length :=
  bv41_block_count_bound lz4Huge rawHugeDecl [[42]] bv41_rawHugeDecl_eval

/-- A 16-byte tile input: one chained block declaring uncompressed size 8
with a 4-byte payload.  Its total length equals the expected pixel-buffer
size for a 2×2 tile (16), so the uncompressed codec would accept it. -/
def rawWrongLen : List Nat := magic41 ++ le32enc 8 ++ le32enc 4 ++ [0, 0, 0, 0]

/-- A block decompressor that returns exactly the declared number of
(zero) bytes. -/
def lz4Declared : Lz4O := fun _ u _ => some (List.replicate u 0)

theorem bv41_rawWrongLen_chunks :
    bv41Chunks lz4Declared rawWrongLen = some [List.replicate 8 0] := by
  rw [bv41Chunks, bv41Go]
  simp only [rawWrongLen, magic41, magicEnd, le32enc, List.cons_append,
    List.nil_append, List.isEmpty_cons, List.take_succ_cons, List.take_zero,
    List.drop_succ_cons, List.drop_zero, Bool.false_eq_true, if_false]
  norm_num [lz4Declared, le32]
  rw [bv41Go]
  rfl

theorem chainPixels_rawWrongLen_eval :
    (bv41Chunks lz4Declared rawWrongLen).map List.flatten
      = some (List.replicate 8 0) := by
  rw [bv41_rawWrongLen_chunks]
  rfl

/-- Counterexample to C4 as stated: on `rawWrongLen` the chained codec
produces 8 bytes where 16 are expected; the code does *not* try the next
codec (which would accept the 16-byte input verbatim) — it fails the
whole tile.  The spec-worded chain (`tileDecodeSpec`, which re-checks the
length at each step and falls through) returns the uncompressed input
instead. -/
theorem tileDecode_no_fallthrough_counterexample :
    tileDecode lz4Declared lzoNone zlibNone rawWrongLen 16 = none ∧
    tileDecodeSpec lz4Declared lzoNone zlibNone rawWrongLen 16 = some rawWrongLen ∧
    (rawWrongLen.length : Int) = 16 := by
  refine ⟨?_, ?_, by decide⟩
  · rw [tileDecode, chainPixels]
    simp only [show rawWrongLen.take 4 = magic41 by decide, if_pos rfl,
      chainPixels_rawWrongLen_eval]
    rfl
  · rw [tileDecodeSpec]
    simp only [show rawWrongLen.take 4 = magic41 by decide, if_pos rfl,
      chainPixels_rawWrongLen_eval]
    rfl

/-- C4 (amended): a codec step's wrong-length output is *not* retried
with the next codec: whenever the chained codec produces output whose
length differs from the expected size, the whole tile decode returns a
failure (the single length check happens once, after the chain), even
when a later codec would have accepted the input.  Only a step that
produces no output at all (raises) falls through to the next codec. -/
theorem tileDecode_wrong_length_fails (lz4O : Lz4O) (lzoO : LzoO) (zlibO : ZlibO)
    (raw : List Nat) (expected : Int) (p : List Nat)
    (hm : raw.take 4 = magic41)
    (hp : (bv41Chunks lz4O raw).map List.flatten = some p)
    (hlen : (p.length : Int) ≠ expected) :
    tileDecode lz4O lzoO zlibO raw expected = none := by
  rw [tileDecode, chainPixels]
  simp only [hm, if_pos rfl, hp]
  simp [Option.orElse, hlen]

/-- Witness for C4 (amended) at the concrete fixture. -/
theorem tileDecode_wrong_length_fails_witness :
    tileDecode lz4Declared lzoNone zlibNone rawWrongLen 16 = none :=
  tileDecode_wrong_length_fails lz4Declared lzoNone zlibNone rawWrongLen 16
    (List.replicate 8 0) (by decide) chainPixels_rawWrongLen_eval (by decide)

/-- One chunk entry "decodes": its name parses to tile coordinates, its
bytes can be read, and the codec chain produces output of exactly the
expected size. -/
def tileOk (lz4O : Lz4O) (lzoO : LzoO) (zlibO : ZlibO) (z : PZip)
    (pfxLen : Nat) (ts : Int) (n : String) : Bool :=
  match parseTileName pfxLen n with
  | none => false
  | some _ =>
    match z.content n with
    | none => false
    | some raw => (tileDecode lz4O lzoO zlibO raw (ts * ts * 4)).isSome

theorem tileStep_of_not_ok (lz4O : Lz4O) (lzoO : LzoO) (zlibO : ZlibO) (z : PZip)
    (pfxLen : Nat) (ts : Int) (acc : Img × Bool) (n : String)
    (h : tileOk lz4O lzoO zlibO z pfxLen ts n = false) :
    tileStep lz4O lzoO zlibO z pfxLen ts acc n = acc := by
  unfold tileOk at h
  unfold tileStep
  cases hp : parseTileName pfxLen n with
  | none => rfl
  | some cr =>
    obtain ⟨col, row⟩ := cr
    rw [hp] at h
    dsimp only at h ⊢
    cases hc : z.content n with
    | none => rfl
    | some raw =>
      rw [hc] at h
      dsimp only at h ⊢
      cases hd : tileDecode lz4O lzoO zlibO raw (ts * ts * 4) with
      | none => rfl
      | some pixels =>
        rw [hd] at h
        cases h

theorem tileStep_snd (lz4O : Lz4O) (lzoO : LzoO) (zlibO : ZlibO) (z : PZip)
    (pfxLen : Nat) (ts : Int) (acc : Img × Bool) (n : String) :
    (tileStep lz4O lzoO zlibO z pfxLen ts acc n).2
      = (acc.2 || tileOk lz4O lzoO zlibO z pfxLen ts n) := by
  unfold tileStep tileOk
  cases hp : parseTileName pfxLen n with
  | none => simp
  | some cr =>
    obtain ⟨col, row⟩ := cr
    dsimp only
    cases hc : z.content n with
    | none => simp
    | some raw =>
      dsimp only
      cases hd : tileDecode lz4O lzoO zlibO raw (ts * ts * 4) with
      | none => simp
      | some pixels => simp

theorem tileStep_dims (lz4O : Lz4O) (lzoO : LzoO) (zlibO : ZlibO) (z : PZip)
    (pfxLen : Nat) (ts : Int) (acc : Img × Bool) (n : String) :
    (tileStep lz4O lzoO zlibO z pfxLen ts acc n).1.w = acc.1.w ∧
    (tileStep lz4O lzoO zlibO z pfxLen ts acc n).1.h = acc.1.h := by
  unfold tileStep
  cases hp : parseTileName pfxLen n with
  | none => exact ⟨rfl, rfl⟩
  | some cr =>
    obtain ⟨col, row⟩ := cr
    dsimp only
    cases hc : z.content n with
    | none => exact ⟨rfl, rfl⟩
    | some raw =>
      dsimp only
      cases hd : tileDecode lz4O lzoO zlibO raw (ts * ts * 4) with
      | none => exact ⟨rfl, rfl⟩
      | some pixels => exact ⟨rfl, rfl⟩

theorem foldl_tileStep_snd (lz4O : Lz4O) (lzoO : LzoO) (zlibO : ZlibO) (z : PZip)
    (pfxLen : Nat) (ts : Int) (l : List String) (acc : Img × Bool) :
    (l.foldl (tileStep lz4O lzoO zlibO z pfxLen ts) acc).2
      = (acc.2 || l.any (tileOk lz4O lzoO zlibO z pfxLen ts)) := by
  induction l generalizing acc with
  | nil => simp
  | cons n rest ih =>
    rw [List.foldl_cons, List.any_cons, ih, tileStep_snd]
    rw [Bool.or_assoc]

theorem foldl_tileStep_dims (lz4O : Lz4O) (lzoO : LzoO) (zlibO : ZlibO) (z : PZip)
    (pfxLen : Nat) (ts : Int) (l : List String) (acc : Img × Bool) :
    (l.foldl (tileStep lz4O lzoO zlibO z pfxLen ts) acc).1.w = acc.1.w ∧
    (l.foldl (tileStep lz4O lzoO zlibO z pfxLen ts) acc).1.h = acc.1.h := by
  induction l generalizing acc with
  | nil => exact ⟨rfl, rfl⟩
  | cons n rest ih =>
    rw [List.foldl_cons]
    refine ⟨?_, ?_⟩
    · rw [(ih _).1, (tileStep_dims lz4O lzoO zlibO z pfxLen ts acc n).1]
    · rw [(ih _).2, (tileStep_dims lz4O lzoO zlibO z pfxLen ts acc n).2]

/-- A pixel position `(x, y)` (in canvas coordinates) is uncovered by the
successfully decoded tiles of the chunk list `l`. -/
def Uncovered (lz4O : Lz4O) (lzoO : LzoO) (zlibO : ZlibO) (z : PZip)
    (pfxLen : Nat) (ts : Int) (l : List String) (x y : Nat) : Prop :=
  ∀ n ∈ l, tileOk lz4O lzoO zlibO z pfxLen ts n = true →
    ∀ col row, parseTileName pfxLen n = some (col, row) →
      ¬ ((col * ts ≤ (x : Int) ∧ (x : Int) < col * ts + ts) ∧
         (row * ts ≤ (y : Int) ∧ (y : Int) < row * ts + ts))

theorem foldl_tileStep_px (lz4O : Lz4O) (lzoO : LzoO) (zlibO : ZlibO) (z : PZip)
    (pfxLen : Nat) (ts : Int) (hts : 0 < ts) (l : List String) (acc : Img × Bool)
    (x y : Nat) (hun : Uncovered lz4O lzoO zlibO z pfxLen ts l x y) :
    (l.foldl (tileStep lz4O lzoO zlibO z pfxLen ts) acc).1.px x y = acc.1.px x y := by
  induction l generalizing acc with
  | nil => rfl
  | cons n rest ih =>
    rw [List.foldl_cons]
    rw [ih _ (fun m hm => hun m (List.mem_cons_of_mem n hm))]
    by_cases hok : tileOk lz4O lzoO zlibO z pfxLen ts n = true
    · unfold tileStep
      cases hp : parseTileName pfxLen n with
      | none => rfl
      | some cr =>
        obtain ⟨col, row⟩ := cr
        dsimp only
        cases hc : z.content n with
        | none => rfl
        | some raw =>
          dsimp only
          cases hd : tileDecode lz4O lzoO zlibO raw (ts * ts * 4) with
          | none => rfl
          | some pixels =>
            have hbox := hun n (List.mem_cons_self n rest) hok col row hp
            show (acc.1.paste (frombytesBGRA ts.toNat pixels)
              (col * ts) (row * ts)).px x y = acc.1.px x y
            unfold Img.paste
            dsimp only
            rw [if_neg]
            intro hcon
            apply hbox
            have htsnat : ((frombytesBGRA ts.toNat pixels).w : Int) = ts := by
              show ((ts.toNat : Nat) : Int) = ts
              omega
            refine ⟨⟨hcon.2.2.1, ?_⟩, hcon.2.2.2.2.1, ?_⟩
            · have := hcon.2.2.2.1
              rw [htsnat] at this
              exact this
            · have := hcon.2.2.2.2.2
              have hh : ((frombytesBGRA ts.toNat pixels).h : Int) = ts := htsnat
              rw [hh] at this
              exact this
    · rw [tileStep_of_not_ok lz4O lzoO zlibO z pfxLen ts acc n
        (Bool.not_eq_true _ ▸ eq_false_of_ne_true hok)]

theorem ok_bind {α β : Type} (a : α) (f : α → Except Unit β) :
    ((Except.ok a : Except Unit α) >>= f) = f a := rfl

/-- `load_layer_image` on the non-degenerate path: with an open zip, a
valid index, a named layer, at least one chunk entry, a computed tile
size and a positive canvas, it is the chunk fold followed by the
`loaded_any` check and the final crop. -/
theorem loadLayerImage_unfold (lz4O : Lz4O) (lzoO : LzoO) (zlibO : ZlibO)
    (st : PFile) (i : Int) (z : PZip) (ts0 : Int)
    (hz : st.zip = some z)
    (hb : ¬ (i < 0 ∨ (st.layers.length : Int) ≤ i))
    (hu : ¬ ((st.layers.getD i.toNat dummyLayer).uuid = ""))
    (hcf : (chunkFilesOf z (st.layers.getD i.toNat dummyLayer).uuid).isEmpty = false)
    (hts : getTileSize st = .ok ts0)
    (hwh : ¬ (st.canvasWidth ≤ 0 ∨ st.canvasHeight ≤ 0)) :
    loadLayerImage lz4O lzoO zlibO st i =
      (let layer := st.layers.getD i.toNat dummyLayer
       let ts := if ts0 ≤ 0 then 256 else ts0
       let cols := max 1 ((st.canvasWidth + ts - 1) / ts)
       let rows := max 1 ((st.canvasHeight + ts - 1) / ts)
       let res := (chunkFilesOf z layer.uuid).foldl
         (tileStep lz4O lzoO zlibO z (layer.uuid ++ "/").length ts)
         (Img.new (cols * ts).toNat (rows * ts).toNat (0, 0, 0, 0), false)
       if res.2 = false then .ok none
       else if res.1.w = st.canvasWidth.toNat ∧ res.1.h = st.canvasHeight.toNat then
         .ok (some res.1)
       else .ok (some (res.1.crop0 st.canvasWidth.toNat st.canvasHeight.toNat))) := by
  unfold loadLayerImage
  simp only [hz, hb, hu, hcf, hts, hwh, Bool.false_eq_true, if_false, ite_false,
    ok_bind]

/--
C6: with a non-empty identifier, at least one matching tile entry, a
positive declared canvas and a computed tile size, `load_layer_image`
returns `None` exactly when *no* chunk decoded successfully; and when it
returns an image, that image has exactly the canvas dimensions and every
pixel position not covered by a successfully decoded tile is fully
transparent `(0, 0, 0, 0)` (failed or unparseable tiles contribute
nothing).
-/
theorem loadLayerImage_partial_tiles (lz4O : Lz4O) (lzoO : LzoO) (zlibO : ZlibO)
    (st : PFile) (i : Int) (z : PZip) (ts0 : Int)
    (hz : st.zip = some z)
    (hb : ¬ (i < 0 ∨ (st.layers.length : Int) ≤ i))
    (hu : ¬ ((st.layers.getD i.toNat dummyLayer).uuid = ""))
    (hcf : (chunkFilesOf z (st.layers.getD i.toNat dummyLayer).uuid).isEmpty = false)
    (hts : getTileSize st = .ok ts0)
    (hwh : ¬ (st.canvasWidth ≤ 0 ∨ st.canvasHeight ≤ 0)) :
    (loadLayerImage lz4O lzoO zlibO st i = .ok none ↔
      ∀ n ∈ chunkFilesOf z (st.layers.getD i.toNat dummyLayer).uuid,
        tileOk lz4O lzoO zlibO z
          ((st.layers.getD i.toNat dummyLayer).uuid ++ "/").length
          (if ts0 ≤ 0 then 256 else ts0) n = false) ∧
    (∀ img, loadLayerImage lz4O lzoO zlibO st i = .ok (some img) →
      img.w = st.canvasWidth.toNat ∧ img.h = st.canvasHeight.toNat ∧
      ∀ x y, Uncovered lz4O lzoO zlibO z
          ((st.layers.getD i.toNat dummyLayer).uuid ++ "/").length
          (if ts0 ≤ 0 then 256 else ts0)
          (chunkFilesOf z (st.layers.getD i.toNat dummyLayer).uuid) x y →
        img.px x y = (0, 0, 0, 0)) := by
  have heq := loadLayerImage_unfold lz4O lzoO zlibO st i z ts0 hz hb hu hcf hts hwh
  set layer := st.layers.getD i.toNat dummyLayer with hlay
  set ts : Int := if ts0 ≤ 0 then 256 else ts0 with htsdef
  have htspos : 0 < ts := by
    rw [htsdef]
    by_cases hc : ts0 ≤ 0
    · simp [hc]
    · simp [hc]
      omega
  set cols : Int := max 1 ((st.canvasWidth + ts - 1) / ts) with hcols
  set rows : Int := max 1 ((st.canvasHeight + ts - 1) / ts) with hrows
  set start : Img := Img.new (cols * ts).toNat (rows * ts).toNat (0, 0, 0, 0) with hstart
  set res := (chunkFilesOf z layer.uuid).foldl
    (tileStep lz4O lzoO zlibO z (layer.uuid ++ "/").length ts) (start, false) with hres
  have hsnd : res.2 = (chunkFilesOf z layer.uuid).any
      (tileOk lz4O lzoO zlibO z (layer.uuid ++ "/").length ts) := by
    rw [hres, foldl_tileStep_snd]
    rfl
  constructor
  · constructor
    · intro hnone
      rw [heq] at hnone
      dsimp only at hnone
      by_cases h2 : res.2 = false
      · intro n hn
        have := h2
        rw [hsnd] at this
        have hall := List.any_eq_false.mp this
        have := hall n hn
        simpa using this
      · exfalso
        rw [if_neg h2] at hnone
        by_cases hdim : res.1.w = st.canvasWidth.toNat ∧ res.1.h = st.canvasHeight.toNat
        · rw [if_pos hdim] at hnone
          cases hnone
        · rw [if_neg hdim] at hnone
          cases hnone
    · intro hall
      rw [heq]
      dsimp only
      rw [if_pos]
      rw [hsnd]
      apply List.any_eq_false.mpr
      intro n hn
      have := hall n hn
      simpa using this
  · intro img himg
    rw [heq] at himg
    dsimp only at himg
    by_cases h2 : res.2 = false
    · rw [if_pos h2] at himg
      cases himg
    · rw [if_neg h2] at himg
      have hdims := foldl_tileStep_dims lz4O lzoO zlibO z (layer.uuid ++ "/").length ts
        (chunkFilesOf z layer.uuid) (start, false)
      have hpx : ∀ x y, Uncovered lz4O lzoO zlibO z (layer.uuid ++ "/").length ts
          (chunkFilesOf z layer.uuid) x y → res.1.px x y = (0, 0, 0, 0) := by
        intro x y hunc
        rw [hres, foldl_tileStep_px lz4O lzoO zlibO z _ ts htspos _ _ x y hunc]
        rfl
      by_cases hdim : res.1.w = st.canvasWidth.toNat ∧ res.1.h = st.canvasHeight.toNat
      · rw [if_pos hdim] at himg
        cases himg
        exact ⟨hdim.1, hdim.2, hpx⟩
      · rw [if_neg hdim] at himg
        cases himg
        refine ⟨rfl, rfl, ?_⟩
        intro x y hunc
        unfold Img.crop0
        dsimp only
        by_cases hin : x < res.1.w ∧ y < res.1.h
        · rw [if_pos hin]
          exact hpx x y hunc
        · rw [if_neg hin]

/-- 16 bytes of BGRA data: four opaque red pixels (one full 2×2 tile). -/
def tileRedBytes : List Nat :=
  [0, 0, 255, 255, 0, 0, 255, 255, 0, 0, 255, 255, 0, 0, 255, 255]

/-- A container with one decodable tile `L1/0_0.chunk` (uncompressed red)
and one undecodable tile `L1/0_1.chunk` (3 garbage bytes). -/
def zPartial : PZip :=
  ⟨["L1/0_0.chunk", "L1/0_1.chunk"],
   fun n =>
     if n = "L1/0_0.chunk" then some tileRedBytes
     else if n = "L1/0_1.chunk" then some [1, 2, 3] else none⟩

/-- A loaded state over `zPartial`: a 2×4 canvas, tile size 2, one layer
of identifier `L1`. -/
def stPartial : PFile :=
  { zip := some zPartial,
    layers := [⟨"L", "L1", 1, true, 0⟩],
    canvasWidth := 2, canvasHeight := 4,
    documentArchive := some (.dict [("$top", .dict [("root", .uid 1)])]),
    archiveObjects := .arr [.str "$null", .dict [("tileSize", .int 2)]] }

/-- Witness for C6 at the partial-tile scenario: canvas 2×4, tile size 2,
chunk `(0,0)` decodes (uncompressed) while chunk `(0,1)` fails every
codec. -/
theorem loadLayerImage_partial_tiles_witness :
    (loadLayerImage lz4None lzoNone zlibNone stPartial 0 = .ok none ↔
      ∀ n ∈ chunkFilesOf zPartial "L1",
        tileOk lz4None lzoNone zlibNone zPartial 3 2 n = false) ∧
    (∀ img, loadLayerImage lz4None lzoNone zlibNone stPartial 0 = .ok (some img) →
      img.w = 2 ∧ img.h = 4 ∧
      ∀ x y, Uncovered lz4None lzoNone zlibNone zPartial 3 2
          (chunkFilesOf zPartial "L1") x y →
        img.px x y = (0, 0, 0, 0)) :=
  loadLayerImage_partial_tiles lz4None lzoNone zlibNone stPartial 0 zPartial 2
    rfl (by decide) (by decide) (by decide) rfl (by decide)

/-- A container with a single opaque-red 2×2 tile for layer `L1`. -/
def zRed : PZip :=
  ⟨["L1/0_0.chunk"],
   fun n => if n = "L1/0_0.chunk" then some tileRedBytes else none⟩

/-- A loaded state over `zRed` with a 2×2 canvas, tile size 2 and one
visible layer of the given opacity. -/
def stRed (op : ℚ) : PFile :=
  { zip := some zRed,
    layers := [⟨"L", "L1", op, true, 0⟩],
    canvasWidth := 2, canvasHeight := 2,
    documentArchive := some (.dict [("$top", .dict [("root", .uid 1)])]),
    archiveObjects := .arr [.str "$null", .dict [("tileSize", .int 2)]] }

/-- The pixel of a composite result at a position, or a sentinel value
when no image was produced. -/
def pxOf (e : Except Unit (Option Img)) (x y : Nat) : Pix :=
  match e with
  | .ok (some img) => img.px x y
  | _ => (1000, 1000, 1000, 1000)

/-- Whether a composite call produced an image. -/
def isSomeImg (e : Except Unit (Option Img)) : Bool :=
  match e with
  | .ok (some _) => true
  | _ => false

/--
C7 (amended): the opacity step multiplies only the alpha channel — the
red, green and blue channels and the geometry are untouched, and the new
alpha is the truncated product `int(a * op)` — and on the concrete
single-layer scenario, compositing at opacity 0.5 yields at every canvas
pixel the same color channels as the fully-opaque composite and an alpha
channel equal to the fully-opaque alpha halved *rounding down*
(255 → 127), not exactly half.
-/
theorem compositeLayers_opacity_alpha_only :
    (mkRat 1 2 : ℚ) = 1 / 2 ∧
    (∀ (op : ℚ) (img : Img) (x y : Nat),
      (applyOpacity op img).w = img.w ∧ (applyOpacity op img).h = img.h ∧
      ((applyOpacity op img).px x y).1 = (img.px x y).1 ∧
      ((applyOpacity op img).px x y).2.1 = (img.px x y).2.1 ∧
      ((applyOpacity op img).px x y).2.2.1 = (img.px x y).2.2.1 ∧
      ((applyOpacity op img).px x y).2.2.2
        = clip8 (truncMul ((img.px x y).2.2.2) op)) ∧
    (isSomeImg (compositeLayers lz4None lzoNone zlibNone (stRed 1) none) = true ∧
     isSomeImg (compositeLayers lz4None lzoNone zlibNone (stRed (mkRat 1 2)) none) = true ∧
     ∀ x y : Nat, x < 2 → y < 2 →
       pxOf (compositeLayers lz4None lzoNone zlibNone (stRed 1) none) x y
           = (255, 0, 0, 255) ∧
       pxOf (compositeLayers lz4None lzoNone zlibNone (stRed (mkRat 1 2)) none) x y
           = (255, 0, 0, 127) ∧
       (pxOf (compositeLayers lz4None lzoNone zlibNone (stRed (mkRat 1 2)) none) x y).2.2.2
           = (pxOf (compositeLayers lz4None lzoNone zlibNone (stRed 1) none) x y).2.2.2
             / 2) := by
  refine ⟨by rw [Rat.mkRat_eq_div]; norm_num, ?_, ?_⟩
  · intro op img x y
    exact ⟨rfl, rfl, rfl, rfl, rfl, rfl⟩
  · refine ⟨by decide, by decide, ?_⟩
    intro x y hx hy
    match x, hx, y, hy with
    | 0, _, 0, _ => exact ⟨by decide, by decide, by decide⟩
    | 0, _, 1, _ => exact ⟨by decide, by decide, by decide⟩
    | 1, _, 0, _ => exact ⟨by decide, by decide, by decide⟩
    | 1, _, 1, _ => exact ⟨by decide, by decide, by decide⟩

/-- Counterexample to C7 as stated: in the concrete scenario the
fully-opaque composite alpha is 255 and the half-opacity composite alpha
is 127 — which is *not* exactly half of 255 (no integer is). -/
theorem compositeLayers_opacity_half_counterexample :
    isSomeImg (compositeLayers lz4None lzoNone zlibNone (stRed 1) none) = true ∧
    isSomeImg (compositeLayers lz4None lzoNone zlibNone (stRed (mkRat 1 2)) none) = true ∧
    (pxOf (compositeLayers lz4None lzoNone zlibNone (stRed 1) none) 0 0).2.2.2 = 255 ∧
    (pxOf (compositeLayers lz4None lzoNone zlibNone (stRed (mkRat 1 2)) none) 0 0).2.2.2
        = 127 ∧
    ¬ (2 * (pxOf (compositeLayers lz4None lzoNone zlibNone (stRed (mkRat 1 2)) none) 0 0).2.2.2
        = (pxOf (compositeLayers lz4None lzoNone zlibNone (stRed 1) none) 0 0).2.2.2) := by
  exact ⟨by decide, by decide, by decide, by decide, by decide⟩

/-- Witness for C7 (amended) at the pixel `(0, 0)` of the concrete
scenario. -/
theorem compositeLayers_opacity_alpha_only_witness :
    pxOf (compositeLayers lz4None lzoNone zlibNone (stRed 1) none) 0 0
        = (255, 0, 0, 255) ∧
    pxOf (compositeLayers lz4None lzoNone zlibNone (stRed (mkRat 1 2)) none) 0 0
        = (255, 0, 0, 127) := by
  obtain ⟨-, -, -, -, hxy⟩ := compositeLayers_opacity_alpha_only
  exact ⟨(hxy 0 0 (by decide) (by decide)).1, (hxy 0 0 (by decide) (by decide)).2.1⟩

end Procreate
